import Mathlib

/-!
Verification of the UNO engine implemented in `src/uno.py` (PythUNO).

The Python module is embedded shallowly:

* `Card`, `build_deck`, `Player` mirror the classes/functions of the source.
* Python lists used as piles are Lean `List`s in the same order; `pile.pop()`
  pops the LAST element, so drawing works on `getLast?`/`dropLast`.
* The process-wide `random` module is made explicit: every operation that
  shuffles takes a `sh : List Card → List Card` argument (the shuffle the RNG
  would have produced), and the `random.choice(COLORS)` fallback inside
  `place_card` is an explicit `fb : Color` argument.
* `print`/`input` calls of the source are I/O and are dropped; the boolean the
  player would have typed for the UNO declaration is an explicit argument.
-/

namespace Uno

inductive Color
  | Red
  | Green
  | Blue
  | Yellow
deriving DecidableEq, Repr

/-- The `value : str` field of a Python `Card`, as an enumeration: the digit
strings `"0"`–`"9"`, the three action strings, and the two wild strings. -/
inductive Value
  | num (d : Fin 10)
  | skip
  | reverse
  | drawTwo
  | wild
  | wild4
deriving DecidableEq, Repr

/-- `class Card`: `color` is `None` for wilds. -/
structure Card where
  color : Option Color
  value : Value
deriving DecidableEq, Repr

/-- `Card.is_wild`: `self.value in (WILD, WILD4)`. -/
def Card.is_wild (c : Card) : Bool :=
  match c.value with
  | .wild => true
  | .wild4 => true
  | _ => false

/-- `Card.matches`: wild, or color equal, or value equal. -/
def Card.matches (c : Card) (top_color : Color) (top_value : Value) : Bool :=
  c.is_wild || decide (c.color = some top_color) || decide (c.value = top_value)

/-- `card.value.isdigit()` for our `Value` enumeration. -/
def Value.isDigit : Value → Bool
  | .num _ => true
  | _ => false

def numsOneToNine : List (Fin 10) := [1, 2, 3, 4, 5, 6, 7, 8, 9]

/-- The 25 cards of one color produced by the loop body of `build_deck`:
one `0`, two of each of `1`–`9`, two of each action. -/
def colorBlock (col : Color) : List Card :=
  ⟨some col, .num 0⟩ ::
    ((numsOneToNine.map (fun v => [⟨some col, .num v⟩, ⟨some col, .num v⟩])).flatten ++
      (([Value.skip, Value.reverse, Value.drawTwo].map
        (fun a => [⟨some col, a⟩, ⟨some col, a⟩])).flatten))

/-- `build_deck()` before shuffling: the fixed 108-card multiset in
construction order (the shuffle is applied separately by the caller). -/
def build_deck : List Card :=
  (([Color.Red, Color.Green, Color.Blue, Color.Yellow].map colorBlock).flatten) ++
    ((List.range 4).map (fun _ => [(⟨none, Value.wild⟩ : Card), ⟨none, Value.wild4⟩])).flatten

/-- `class Player`. -/
structure Player where
  name : String
  is_human : Bool
  hand : List Card
deriving DecidableEq, Repr

def dummyPlayer : Player := ⟨"", false, []⟩

/-- The loop of `Player.draw`: pop from the end of `pile` up to `count` times,
stopping early when the pile empties. Returns `(drawn, remaining pile)`;
the drawn cards are listed in pop order, and the hand is extended with them. -/
def drawCards (pile : List Card) : Nat → List Card × List Card
  | 0 => ([], pile)
  | n + 1 =>
    match pile.getLast? with
    | none => ([], pile)
    | some c =>
      let r := drawCards pile.dropLast n
      (c :: r.1, r.2)

/-- `class UnoGame` state (the `players` list owns the hands). -/
@[ext]
structure GameState where
  draw_pile : List Card
  discard_pile : List Card
  players : List Player
  current_idx : Nat
  direction : Int
  current_color : Option Color
  current_value : Option Value
deriving DecidableEq, Repr

def getHand (st : GameState) (i : Nat) : List Card :=
  (st.players.getD i dummyPlayer).hand

def setHand (st : GameState) (i : Nat) (h : List Card) : GameState :=
  { st with players := st.players.set i { st.players.getD i dummyPlayer with hand := h } }

/-- `UnoGame._next_player_index`: `(current_idx + direction) % len(players)`
with Python's nonnegative `%`, i.e. `Int.emod`. -/
def next_player_index (st : GameState) : Nat :=
  (((st.current_idx : Int) + st.direction).emod (st.players.length : Int)).toNat

/-- `UnoGame._refill_draw_pile_if_needed`: when the draw pile is empty and the
discard pile has at least two cards, shuffle everything but the top discard
into a new draw pile and leave only the old top on the discard pile. -/
def refill_draw_pile_if_needed (sh : List Card → List Card) (st : GameState) : GameState :=
  if st.draw_pile = [] then
    if st.discard_pile.length ≤ 1 then st
    else
      match st.discard_pile.getLast? with
      | none => st
      | some top =>
        { st with
          draw_pile := sh st.discard_pile.dropLast
          discard_pile := [top] }
  else st

/-- `UnoGame.playable_cards`. -/
def playable_cards (hand : List Card) (cc : Color) (cv : Value) : List Card :=
  hand.filter (fun c => c.matches cc cv)

/-- `UnoGame.can_play_wd4`: `False` as soon as some card in `hand` has the
active color and is not wild, else `True`. -/
def can_play_wd4 (hand : List Card) (current_color : Color) : Bool :=
  !hand.any (fun c => decide (c.color = some current_color) && !c.is_wild)

/-- The `Draw Two` / `Wild Draw Four` effect block of `UnoGame.place_card`
(the two source branches are textually identical up to the draw count `n`):
identify the victim, refill if needed, have the victim draw `n`, move the
pointer onto the victim and then advance once more past them. -/
def resolveForcedDraw (sh : List Card → List Card) (n : Nat) (st : GameState) : GameState :=
  let victim_idx := next_player_index st
  let st1 := refill_draw_pile_if_needed sh st
  let r := drawCards st1.draw_pile n
  let st2 := { setHand st1 victim_idx (getHand st1 victim_idx ++ r.1) with draw_pile := r.2 }
  let st3 := { st2 with current_idx := victim_idx }
  { st3 with current_idx := next_player_index st3 }

/-- The placement part of `UnoGame.place_card`: remove the card from the
player's hand, push it onto the discard pile and set the active color/value
to `cc`/`cv`. -/
def placeBase (pIdx : Nat) (card : Card) (cc : Option Color) (cv : Option Value)
    (st : GameState) : GameState :=
  let st1 := setHand st pIdx ((getHand st pIdx).erase card)
  { st1 with
    discard_pile := st1.discard_pile ++ [card]
    current_color := cc
    current_value := cv }

/-- `UnoGame.place_card(player, card, chosen_color)`: the player (identified
here by index `pIdx`; the source passes the player object itself) loses the
card, the discard gains it, the active color/value are updated (wilds use
`chosen_color or random.choice(COLORS)`, the random fallback being `fb`),
then the action effect runs.  The source's post-placement WD4 re-check
(`can_play_wd4(player.hand + [card])`) guards a `pass` statement and is a
no-op, so it contributes nothing here. -/
def place_card (sh : List Card → List Card) (fb : Color) (pIdx : Nat)
    (card : Card) (chosen_color : Option Color) (st : GameState) : GameState :=
  let st3 :=
    if card.is_wild then
      placeBase pIdx card (some (chosen_color.getD fb)) (some card.value) st
    else
      placeBase pIdx card card.color (some card.value) st
  if card.value = .skip ∨ card.value = .reverse then
    { st3 with current_idx := next_player_index st3 }
  else if card.value = .drawTwo then
    resolveForcedDraw sh 2 st3
  else if card.value = .wild4 then
    resolveForcedDraw sh 4 st3
  else st3

/-- `UnoGame._maybe_check_uno(player)`: when the player is down to one card,
a human who did not say "uno" (the typed answer is the explicit `saidUno`
argument) draws a 2-card penalty, refilling the pile first if needed. -/
def maybe_check_uno (sh : List Card → List Card) (saidUno : Bool) (pIdx : Nat)
    (st : GameState) : GameState :=
  if (getHand st pIdx).length = 1 then
    if (st.players.getD pIdx dummyPlayer).is_human then
      if saidUno then st
      else
        let st1 := refill_draw_pile_if_needed sh st
        let r := drawCards st1.draw_pile 2
        { setHand st1 pIdx (getHand st1 pIdx ++ r.1) with draw_pile := r.2 }
    else st
  else st

/-- The refill-then-draw sequence every drawing call site of the source uses
(`_refill_draw_pile_if_needed()` immediately followed by
`player.draw(self.draw_pile, n)`). -/
def draw_for (sh : List Card → List Card) (pIdx n : Nat) (st : GameState) : GameState :=
  let st1 := refill_draw_pile_if_needed sh st
  let r := drawCards st1.draw_pile n
  { setHand st1 pIdx (getHand st1 pIdx ++ r.1) with draw_pile := r.2 }

/-- The complete resolution of a chosen play as performed by `human_turn`
(and identically by `cpu_turn`): `place_card`, then `_maybe_check_uno`, then
the unconditional `self.current_idx = self._next_player_index()`. -/
def resolve_play (sh : List Card → List Card) (fb : Color) (saidUno : Bool)
    (pIdx : Nat) (card : Card) (chosen_color : Option Color) (st : GameState) : GameState :=
  let st1 := place_card sh fb pIdx card chosen_color st
  let st2 := maybe_check_uno sh saidUno pIdx st1
  { st2 with current_idx := next_player_index st2 }

/-! ### Projection lemmas for the state operations -/

@[simp] lemma setHand_draw_pile (st : GameState) (i : Nat) (h : List Card) :
    (setHand st i h).draw_pile = st.draw_pile := rfl

@[simp] lemma setHand_discard_pile (st : GameState) (i : Nat) (h : List Card) :
    (setHand st i h).discard_pile = st.discard_pile := rfl

@[simp] lemma setHand_current_idx (st : GameState) (i : Nat) (h : List Card) :
    (setHand st i h).current_idx = st.current_idx := rfl

@[simp] lemma setHand_direction (st : GameState) (i : Nat) (h : List Card) :
    (setHand st i h).direction = st.direction := rfl

@[simp] lemma setHand_current_color (st : GameState) (i : Nat) (h : List Card) :
    (setHand st i h).current_color = st.current_color := rfl

@[simp] lemma setHand_current_value (st : GameState) (i : Nat) (h : List Card) :
    (setHand st i h).current_value = st.current_value := rfl

@[simp] lemma setHand_players_length (st : GameState) (i : Nat) (h : List Card) :
    (setHand st i h).players.length = st.players.length := by
  simp [setHand]

@[simp] lemma refill_players (sh : List Card → List Card) (st : GameState) :
    (refill_draw_pile_if_needed sh st).players = st.players := by
  unfold refill_draw_pile_if_needed
  split
  · split
    · rfl
    · split <;> rfl
  · rfl

@[simp] lemma refill_current_idx (sh : List Card → List Card) (st : GameState) :
    (refill_draw_pile_if_needed sh st).current_idx = st.current_idx := by
  unfold refill_draw_pile_if_needed
  split
  · split
    · rfl
    · split <;> rfl
  · rfl

@[simp] lemma refill_direction (sh : List Card → List Card) (st : GameState) :
    (refill_draw_pile_if_needed sh st).direction = st.direction := by
  unfold refill_draw_pile_if_needed
  split
  · split
    · rfl
    · split <;> rfl
  · rfl

@[simp] lemma refill_current_color (sh : List Card → List Card) (st : GameState) :
    (refill_draw_pile_if_needed sh st).current_color = st.current_color := by
  unfold refill_draw_pile_if_needed
  split
  · split
    · rfl
    · split <;> rfl
  · rfl

@[simp] lemma refill_current_value (sh : List Card → List Card) (st : GameState) :
    (refill_draw_pile_if_needed sh st).current_value = st.current_value := by
  unfold refill_draw_pile_if_needed
  split
  · split
    · rfl
    · split <;> rfl
  · rfl

@[simp] lemma getHand_setHand_ne (st : GameState) (i j : Nat) (h : List Card) (hij : i ≠ j) :
    getHand (setHand st i h) j = getHand st j := by
  simp [getHand, setHand, List.getD, List.getElem?_set_ne hij]

lemma next_player_index_eq (st : GameState) :
    next_player_index st
      = (((st.current_idx : Int) + st.direction).emod (st.players.length : Int)).toNat := rfl

@[simp] lemma resolveForcedDraw_current_color (sh : List Card → List Card) (n : Nat)
    (st : GameState) : (resolveForcedDraw sh n st).current_color = st.current_color := by
  simp [resolveForcedDraw]

@[simp] lemma resolveForcedDraw_current_value (sh : List Card → List Card) (n : Nat)
    (st : GameState) : (resolveForcedDraw sh n st).current_value = st.current_value := by
  simp [resolveForcedDraw]

@[simp] lemma resolveForcedDraw_direction (sh : List Card → List Card) (n : Nat)
    (st : GameState) : (resolveForcedDraw sh n st).direction = st.direction := by
  simp [resolveForcedDraw]

@[simp] lemma resolveForcedDraw_players_length (sh : List Card → List Card) (n : Nat)
    (st : GameState) : (resolveForcedDraw sh n st).players.length = st.players.length := by
  simp [resolveForcedDraw]

@[simp] lemma placeBase_current_idx (pIdx : Nat) (card : Card) (cc : Option Color)
    (cv : Option Value) (st : GameState) :
    (placeBase pIdx card cc cv st).current_idx = st.current_idx := rfl

@[simp] lemma placeBase_direction (pIdx : Nat) (card : Card) (cc : Option Color)
    (cv : Option Value) (st : GameState) :
    (placeBase pIdx card cc cv st).direction = st.direction := rfl

@[simp] lemma placeBase_draw_pile (pIdx : Nat) (card : Card) (cc : Option Color)
    (cv : Option Value) (st : GameState) :
    (placeBase pIdx card cc cv st).draw_pile = st.draw_pile := rfl

@[simp] lemma placeBase_discard_pile (pIdx : Nat) (card : Card) (cc : Option Color)
    (cv : Option Value) (st : GameState) :
    (placeBase pIdx card cc cv st).discard_pile = st.discard_pile ++ [card] := rfl

@[simp] lemma placeBase_current_color (pIdx : Nat) (card : Card) (cc : Option Color)
    (cv : Option Value) (st : GameState) :
    (placeBase pIdx card cc cv st).current_color = cc := rfl

@[simp] lemma placeBase_current_value (pIdx : Nat) (card : Card) (cc : Option Color)
    (cv : Option Value) (st : GameState) :
    (placeBase pIdx card cc cv st).current_value = cv := rfl

@[simp] lemma placeBase_players_length (pIdx : Nat) (card : Card) (cc : Option Color)
    (cv : Option Value) (st : GameState) :
    (placeBase pIdx card cc cv st).players.length = st.players.length := by
  simp [placeBase, setHand]

/-! ### C5: the Wild Draw Four legality check -/

lemma can_play_wd4_iff (hand : List Card) (col : Color) :
    can_play_wd4 hand col = true ↔ ∀ c ∈ hand, c.is_wild = false → c.color ≠ some col := by
  simp only [can_play_wd4, Bool.not_eq_true', List.any_eq_false, Bool.and_eq_true,
    decide_eq_true_eq, Bool.not_eq_true, not_and]
  constructor
  · intro h c hc hw
    intro hcol
    exact absurd (h c hc hcol) (by simp [hw])
  · intro h c hc hcol
    by_contra hw
    exact h c hc (by simpa using hw) hcol

/-- C5: `can_play_wd4` is true iff no non-wild card of the hand carries the
active color; the result is unchanged when the candidate WD4 card itself is
removed from the hand (so evaluating the check on the full hand, as the code
does, agrees with evaluating it on the hand excluding the candidate); and any
hand holding a non-wild card of the active color yields `false`. -/
theorem claim_C5_wd4_check (hand : List Card) (col : Color) (w : Card)
    (hw : w.value = Value.wild4) :
    (can_play_wd4 hand col = true ↔ ∀ c ∈ hand, c.is_wild = false → c.color ≠ some col)
    ∧ can_play_wd4 (hand.erase w) col = can_play_wd4 hand col
    ∧ (∀ c ∈ hand, c.is_wild = false → c.color = some col →
        can_play_wd4 hand col = false) := by
  have hwild : w.is_wild = true := by simp [Card.is_wild, hw]
  refine ⟨can_play_wd4_iff hand col, ?_, ?_⟩
  · have h1 : (can_play_wd4 (hand.erase w) col = true)
        ↔ (can_play_wd4 hand col = true) := by
      rw [can_play_wd4_iff, can_play_wd4_iff]
      constructor
      · intro h c hc hcw
        by_cases hcweq : c = w
        · subst hcweq
          simp [hwild] at hcw
        · exact h c ((List.mem_erase_of_ne hcweq).mpr hc) hcw
      · intro h c hc hcw
        exact h c (List.mem_of_mem_erase hc) hcw
    cases hcp : can_play_wd4 hand col
    · cases hcp2 : can_play_wd4 (hand.erase w) col
      · rfl
      · exact absurd (h1.mp hcp2) (by simp [hcp])
    · exact h1.mpr hcp
  · intro c hc hcw hcol
    by_contra habs
    have := (can_play_wd4_iff hand col).mp (by simpa using habs) c hc hcw
    exact this hcol

/-- C5 witness: a concrete instantiation — active color Blue, hand holding a
Blue 7 and a WD4 — of `claim_C5_wd4_check`. -/
theorem claim_C5_wd4_check_witness :
    (can_play_wd4 [⟨some Color.Blue, Value.num 7⟩, ⟨none, Value.wild4⟩] Color.Blue = true
      ↔ ∀ c ∈ [(⟨some Color.Blue, Value.num 7⟩ : Card), ⟨none, Value.wild4⟩],
          c.is_wild = false → c.color ≠ some Color.Blue)
    ∧ can_play_wd4
        ([(⟨some Color.Blue, Value.num 7⟩ : Card), ⟨none, Value.wild4⟩].erase
          ⟨none, Value.wild4⟩) Color.Blue
      = can_play_wd4 [⟨some Color.Blue, Value.num 7⟩, ⟨none, Value.wild4⟩] Color.Blue
    ∧ (∀ c ∈ [(⟨some Color.Blue, Value.num 7⟩ : Card), ⟨none, Value.wild4⟩],
        c.is_wild = false → c.color = some Color.Blue →
        can_play_wd4 [⟨some Color.Blue, Value.num 7⟩, ⟨none, Value.wild4⟩] Color.Blue
          = false) :=
  claim_C5_wd4_check [⟨some Color.Blue, Value.num 7⟩, ⟨none, Value.wild4⟩]
    Color.Blue ⟨none, Value.wild4⟩ rfl

/-! ### C7: two-player Reverse behaves exactly like Skip -/

/-- C7: placing a Reverse leaves the game at the same `current_idx` as
placing a Skip from the same starting state (the skip branch of `place_card`
handles both identically); in a two-player forward-direction state both set
`current_idx` to the other player. -/
theorem claim_C7_reverse_equals_skip (sh : List Card → List Card) (fb : Color)
    (pIdx : Nat) (chosen : Option Color) (st : GameState) (c₁ c₂ : Card)
    (h₁ : c₁.value = Value.reverse) (h₂ : c₂.value = Value.skip) :
    (place_card sh fb pIdx c₁ chosen st).current_idx
      = (place_card sh fb pIdx c₂ chosen st).current_idx
    ∧ (st.players.length = 2 → st.current_idx < 2 → st.direction = 1 →
        (place_card sh fb pIdx c₁ chosen st).current_idx = 1 - st.current_idx) := by
  have hw1 : c₁.is_wild = false := by simp [Card.is_wild, h₁]
  have hw2 : c₂.is_wild = false := by simp [Card.is_wild, h₂]
  have e1 : (place_card sh fb pIdx c₁ chosen st).current_idx
      = (((st.current_idx : Int) + st.direction).emod (st.players.length : Int)).toNat := by
    simp [place_card, hw1, h₁, next_player_index_eq]
  have e2 : (place_card sh fb pIdx c₂ chosen st).current_idx
      = (((st.current_idx : Int) + st.direction).emod (st.players.length : Int)).toNat := by
    simp [place_card, hw2, h₂, next_player_index_eq]
  refine ⟨e1.trans e2.symm, ?_⟩
  intro hlen hidx hdir
  rw [e1, hlen, hdir]
  interval_cases h : st.current_idx
  · decide
  · decide

/-- C7 witness: a concrete two-player state in which a Red Reverse and a Red
Skip produce the same next index, namely the other player. -/
theorem claim_C7_reverse_equals_skip_witness :
    (place_card id Color.Red 0 ⟨some Color.Red, Value.reverse⟩ none
        { draw_pile := []
          discard_pile := [⟨some Color.Red, Value.num 1⟩]
          players := [⟨"You", true, [⟨some Color.Red, Value.reverse⟩]⟩,
                      ⟨"Computer", false, [⟨some Color.Green, Value.num 3⟩]⟩]
          current_idx := 0
          direction := 1
          current_color := some Color.Red
          current_value := some (Value.num 1) }).current_idx
      = (place_card id Color.Red 0 ⟨some Color.Red, Value.skip⟩ none
        { draw_pile := []
          discard_pile := [⟨some Color.Red, Value.num 1⟩]
          players := [⟨"You", true, [⟨some Color.Red, Value.reverse⟩]⟩,
                      ⟨"Computer", false, [⟨some Color.Green, Value.num 3⟩]⟩]
          current_idx := 0
          direction := 1
          current_color := some Color.Red
          current_value := some (Value.num 1) }).current_idx
    ∧ (place_card id Color.Red 0 ⟨some Color.Red, Value.reverse⟩ none
        { draw_pile := []
          discard_pile := [⟨some Color.Red, Value.num 1⟩]
          players := [⟨"You", true, [⟨some Color.Red, Value.reverse⟩]⟩,
                      ⟨"Computer", false, [⟨some Color.Green, Value.num 3⟩]⟩]
          current_idx := 0
          direction := 1
          current_color := some Color.Red
          current_value := some (Value.num 1) }).current_idx = 1 - 0 :=
  ⟨(claim_C7_reverse_equals_skip id Color.Red 0 none _ _ _ rfl rfl).1,
    (claim_C7_reverse_equals_skip id Color.Red 0 none _
      ⟨some Color.Red, Value.reverse⟩ ⟨some Color.Red, Value.skip⟩ rfl rfl).2
      rfl (by decide) rfl⟩

/-! ### C3: a wild played without a chosen color -/

/-- A small two-player state whose current player holds exactly one plain
Wild; the active card is a Red 5. -/
def stWildNoColor : GameState :=
  { draw_pile := []
    discard_pile := [⟨some Color.Red, Value.num 5⟩]
    players := [⟨"You", true, [⟨none, Value.wild⟩]⟩,
                ⟨"Computer", false, [⟨some Color.Green, Value.num 3⟩]⟩]
    current_idx := 0
    direction := 1
    current_color := some Color.Red
    current_value := some (Value.num 5) }

/-- C3 counterexample: playing a plain Wild with `chosen_color = none` is NOT
rejected before mutation — `place_card` runs to completion, emptying the
player's hand, pushing the Wild onto the discard pile, and overwriting the
active color (with the `random.choice(COLORS)` fallback, here Red) and the
active value.  No `MissingColorChoice` error exists anywhere in the code. -/
theorem claim_C3_counterexample :
    (⟨none, Value.wild⟩ : Card).is_wild = true
    ∧ place_card id Color.Red 0 ⟨none, Value.wild⟩ none stWildNoColor ≠ stWildNoColor
    ∧ getHand (place_card id Color.Red 0 ⟨none, Value.wild⟩ none stWildNoColor) 0 = []
    ∧ (place_card id Color.Red 0 ⟨none, Value.wild⟩ none stWildNoColor).discard_pile
        = [⟨some Color.Red, Value.num 5⟩, ⟨none, Value.wild⟩]
    ∧ (place_card id Color.Red 0 ⟨none, Value.wild⟩ none stWildNoColor).current_value
        = some Value.wild := by
  decide

/-- C3 amended: a wild played without a chosen color is not rejected and no
state is left untouched; `place_card` proceeds normally, setting the active
color to the random fallback color and the active value to the wild's kind,
and (for a plain Wild, which has no draw effect) the whole transition is
exactly: hand loses the card, discard gains it, active color/value updated. -/
theorem claim_C3_amended_wild_fallback (sh : List Card → List Card) (fb : Color)
    (pIdx : Nat) (card : Card) (st : GameState) (hw : card.is_wild = true) :
    (place_card sh fb pIdx card none st).current_color = some fb
    ∧ (place_card sh fb pIdx card none st).current_value = some card.value
    ∧ (card.value = Value.wild →
        place_card sh fb pIdx card none st
          = { setHand st pIdx ((getHand st pIdx).erase card) with
              discard_pile := st.discard_pile ++ [card]
              current_color := some fb
              current_value := some card.value }) := by
  have hv : card.value = Value.wild ∨ card.value = Value.wild4 := by
    cases h : card.value <;> simp [Card.is_wild, h] at hw ⊢
  rcases hv with hv | hv
  · refine ⟨?_, ?_, ?_⟩ <;>
      simp [place_card, hw, hv, placeBase, setHand, getHand, GameState.ext_iff]
  · refine ⟨?_, ?_, ?_⟩ <;>
      simp [place_card, hw, hv]

/-- C3 amended witness: the concrete state `stWildNoColor` with fallback Red. -/
theorem claim_C3_amended_wild_fallback_witness :
    (place_card id Color.Red 0 ⟨none, Value.wild⟩ none stWildNoColor).current_color
        = some Color.Red
    ∧ (place_card id Color.Red 0 ⟨none, Value.wild⟩ none stWildNoColor).current_value
        = some Value.wild
    ∧ ((⟨none, Value.wild⟩ : Card).value = Value.wild →
        place_card id Color.Red 0 ⟨none, Value.wild⟩ none stWildNoColor
          = { setHand stWildNoColor 0 ((getHand stWildNoColor 0).erase ⟨none, Value.wild⟩) with
              discard_pile := stWildNoColor.discard_pile ++ [⟨none, Value.wild⟩]
              current_color := some Color.Red
              current_value := some Value.wild }) :=
  claim_C3_amended_wild_fallback id Color.Red 0 ⟨none, Value.wild⟩ stWildNoColor rfl

/-! ### C1: Draw Two / Wild Draw Four and who acts next -/

/-- A two-player state in which "You" (index 0) hold a Red Draw Two and the
active card is a Red 9; the draw pile holds three Blue cards. -/
def stDrawTwoPlay : GameState :=
  { draw_pile := [⟨some Color.Blue, Value.num 1⟩, ⟨some Color.Blue, Value.num 2⟩,
                  ⟨some Color.Blue, Value.num 3⟩]
    discard_pile := [⟨some Color.Red, Value.num 9⟩]
    players := [⟨"You", true, [⟨some Color.Red, Value.drawTwo⟩, ⟨some Color.Red, Value.num 5⟩,
                               ⟨some Color.Red, Value.num 6⟩]⟩,
                ⟨"Computer", false, [⟨some Color.Green, Value.num 3⟩]⟩]
    current_idx := 0
    direction := 1
    current_color := some Color.Red
    current_value := some (Value.num 9) }

/-- A two-player state in which "You" (index 0) hold a WD4 (and nothing of
the active color Green), with five cards in the draw pile. -/
def stWd4Play : GameState :=
  { draw_pile := [⟨some Color.Blue, Value.num 1⟩, ⟨some Color.Blue, Value.num 2⟩,
                  ⟨some Color.Blue, Value.num 3⟩, ⟨some Color.Blue, Value.num 4⟩,
                  ⟨some Color.Blue, Value.num 5⟩]
    discard_pile := [⟨some Color.Green, Value.num 9⟩]
    players := [⟨"You", true, [⟨none, Value.wild4⟩, ⟨some Color.Red, Value.num 5⟩,
                               ⟨some Color.Red, Value.num 6⟩]⟩,
                ⟨"Computer", false, [⟨some Color.Green, Value.num 3⟩]⟩]
    current_idx := 0
    direction := 1
    current_color := some Color.Green
    current_value := some (Value.num 9) }

/-- C1: evaluation of the code at the failing inputs.  Player 0 plays a Draw
Two (resp. a WD4): the victim (player 1) does draw 2 (resp. 4) cards, but
after the play fully resolves — `place_card` followed by the call site's
unconditional `self.current_idx = self._next_player_index()` — the player to
act next is the VICTIM (index 1), not the player who played (index 0).  The
double advance inside `place_card`'s Draw Two branch is a net no-op modulo
two players, so the victim's turn is never actually skipped. -/
theorem claim_C1_victim_keeps_turn :
    next_player_index stDrawTwoPlay = 1
    ∧ (getHand (resolve_play id Color.Red true 0 ⟨some Color.Red, Value.drawTwo⟩ none
          stDrawTwoPlay) 1).length = (getHand stDrawTwoPlay 1).length + 2
    ∧ (resolve_play id Color.Red true 0 ⟨some Color.Red, Value.drawTwo⟩ none
        stDrawTwoPlay).current_idx = 1
    ∧ (resolve_play id Color.Red true 0 ⟨some Color.Red, Value.drawTwo⟩ none
        stDrawTwoPlay).current_idx ≠ 0
    ∧ (getHand (resolve_play id Color.Red true 0 ⟨none, Value.wild4⟩ (some Color.Blue)
          stWd4Play) 1).length = (getHand stWd4Play 1).length + 4
    ∧ (resolve_play id Color.Red true 0 ⟨none, Value.wild4⟩ (some Color.Blue)
        stWd4Play).current_idx = 1
    ∧ (resolve_play id Color.Red true 0 ⟨none, Value.wild4⟩ (some Color.Blue)
        stWd4Play).current_idx ≠ 0 := by
  decide

/-! ### Counting lemmas for `drawCards` -/

lemma drawCards_length_min (n : Nat) (pile : List Card) :
    (drawCards pile n).1.length = min n pile.length := by
  induction n generalizing pile with
  | zero => simp [drawCards]
  | succ n ih =>
    cases h : pile.getLast? with
    | none =>
      have hp : pile = [] := List.getLast?_eq_none_iff.mp h
      simp [drawCards, h, hp]
    | some c =>
      have hp : pile ≠ [] := by
        intro hnil
        rw [hnil] at h
        simp at h
      have hlen : 0 < pile.length := List.length_pos.mpr hp
      simp only [drawCards, h, List.length_cons, ih pile.dropLast, List.length_dropLast]
      omega

lemma drawCards_length_split (n : Nat) (pile : List Card) :
    (drawCards pile n).1.length + (drawCards pile n).2.length = pile.length := by
  induction n generalizing pile with
  | zero => simp [drawCards]
  | succ n ih =>
    cases h : pile.getLast? with
    | none => simp [drawCards, h]
    | some c =>
      have hp : pile ≠ [] := by
        intro hnil
        rw [hnil] at h
        simp at h
      have hlen : 0 < pile.length := List.length_pos.mpr hp
      have := ih pile.dropLast
      simp only [drawCards, h, List.length_cons]
      simp only [List.length_dropLast] at this
      omega

lemma getHand_setHand_self (st : GameState) (i : Nat) (h : List Card)
    (hi : i < st.players.length) : getHand (setHand st i h) i = h := by
  simp [getHand, setHand, List.getD, List.getElem?_set, hi]

lemma getHand_refill (sh : List Card → List Card) (st : GameState) (i : Nat) :
    getHand (refill_draw_pile_if_needed sh st) i = getHand st i := by
  simp [getHand]

/-! ### C2: what a short draw pile actually does -/

/-- Everything outside the concrete piles/hands below: in a 108-card game the
remaining cards sit in the other player's hand, keeping deck conservation. -/
def restOfDeck (used : List Card) : List Card := build_deck.diff used

/-- A state about to serve a 2-card draw from a 1-card draw pile while the
discard pile holds 4 cards (so a recycle would have material). -/
def stShortDraw : GameState :=
  { draw_pile := [⟨some Color.Blue, Value.num 1⟩]
    discard_pile := [⟨some Color.Green, Value.num 7⟩, ⟨some Color.Red, Value.num 9⟩,
                     ⟨some Color.Blue, Value.num 4⟩, ⟨some Color.Yellow, Value.num 2⟩]
    players := [⟨"You", true, [⟨some Color.Red, Value.num 3⟩]⟩,
                ⟨"Computer", false,
                  restOfDeck [⟨some Color.Blue, Value.num 1⟩, ⟨some Color.Green, Value.num 7⟩,
                              ⟨some Color.Red, Value.num 9⟩, ⟨some Color.Blue, Value.num 4⟩,
                              ⟨some Color.Yellow, Value.num 2⟩, ⟨some Color.Red, Value.num 3⟩]⟩]
    current_idx := 0
    direction := 1
    current_color := some Color.Yellow
    current_value := some (Value.num 2) }

/-- C2 counterexample: the draw pile holds 1 card (fewer than the requested
n = 2) and the discard pile holds 4 cards, yet the refill-then-draw sequence
of the code does NOT recycle (the pile is merely short, not empty): the
player receives only 1 card instead of continuing to 2 after a recycle, and
the discard pile is left untouched. -/
theorem claim_C2_counterexample :
    stShortDraw.draw_pile.length < 2
    ∧ 1 < stShortDraw.discard_pile.length
    ∧ (getHand (draw_for id 0 2 stShortDraw) 0).length
        = (getHand stShortDraw 0).length + 1
    ∧ (draw_for id 0 2 stShortDraw).discard_pile = stShortDraw.discard_pile
    ∧ (getHand (draw_for id 0 2 stShortDraw) 0).length
        ≠ (getHand stShortDraw 0).length + 2 := by
  decide

/-- C2 amended: the recycle check happens only once, before the draw starts,
and fires only when the draw pile is empty at that moment (a non-empty pile
is never recycled, however short).  The draw then pops until `n` cards are
drawn or the pile empties, with no mid-draw recycle, so the player receives
`min n` (post-refill pile size) cards; drawing zero or partial cards is a
valid non-error outcome. -/
theorem claim_C2_amended_draw (sh : List Card → List Card) (pIdx n : Nat)
    (st : GameState) (hp : pIdx < st.players.length) :
    getHand (draw_for sh pIdx n st) pIdx
      = getHand st pIdx ++ (drawCards (refill_draw_pile_if_needed sh st).draw_pile n).1
    ∧ (getHand (draw_for sh pIdx n st) pIdx).length
      = (getHand st pIdx).length
          + min n (refill_draw_pile_if_needed sh st).draw_pile.length
    ∧ (st.draw_pile ≠ [] → refill_draw_pile_if_needed sh st = st) := by
  have hp1 : pIdx < (refill_draw_pile_if_needed sh st).players.length := by
    simpa using hp
  have h1 : getHand (draw_for sh pIdx n st) pIdx
      = getHand st pIdx ++ (drawCards (refill_draw_pile_if_needed sh st).draw_pile n).1 := by
    show getHand (setHand (refill_draw_pile_if_needed sh st) pIdx
        (getHand (refill_draw_pile_if_needed sh st) pIdx
          ++ (drawCards (refill_draw_pile_if_needed sh st).draw_pile n).1)) pIdx
      = getHand st pIdx ++ (drawCards (refill_draw_pile_if_needed sh st).draw_pile n).1
    rw [getHand_setHand_self _ _ _ hp1, getHand_refill]
  refine ⟨h1, ?_, ?_⟩
  · rw [h1]
    simp [drawCards_length_min]
  · intro hne
    simp [refill_draw_pile_if_needed, hne]

/-- C2 amended witness: the concrete short-pile state, where the player ends
with `1 + min 2 1 = 2` cards. -/
theorem claim_C2_amended_draw_witness :
    (getHand (draw_for id 0 2 stShortDraw) 0
        = getHand stShortDraw 0
            ++ (drawCards (refill_draw_pile_if_needed id stShortDraw).draw_pile 2).1)
    ∧ ((getHand (draw_for id 0 2 stShortDraw) 0).length
        = (getHand stShortDraw 0).length
            + min 2 (refill_draw_pile_if_needed id stShortDraw).draw_pile.length)
    ∧ (stShortDraw.draw_pile ≠ [] →
        refill_draw_pile_if_needed id stShortDraw = stShortDraw) :=
  claim_C2_amended_draw id 0 2 stShortDraw (by decide)

/-! ### C6: recycle correctness -/

/-- C6: when the draw pile is empty, a recycle with a discard pile
`rest ++ [top]` (at least two cards) leaves exactly `[top]` on the discard
pile and installs a permutation of `rest` as the new draw pile; with at most
one discard card the operation is a no-op and the draw pile stays empty. -/
theorem claim_C6_recycle (sh : List Card → List Card) (st : GameState)
    (hsh : ∀ l, (sh l).Perm l) (hempty : st.draw_pile = []) :
    (∀ rest top, st.discard_pile = rest ++ [top] → rest ≠ [] →
        (refill_draw_pile_if_needed sh st).discard_pile = [top]
        ∧ (refill_draw_pile_if_needed sh st).draw_pile.Perm rest)
    ∧ (st.discard_pile.length ≤ 1 →
        refill_draw_pile_if_needed sh st = st
        ∧ (refill_draw_pile_if_needed sh st).draw_pile = []) := by
  constructor
  · intro rest top hdisc hrest
    have hlen : ¬ st.discard_pile.length ≤ 1 := by
      rw [hdisc]
      simp only [List.length_append, List.length_cons, List.length_nil]
      have : 0 < rest.length := List.length_pos.mpr hrest
      omega
    have hlast : st.discard_pile.getLast? = some top := by
      rw [hdisc]
      exact List.getLast?_concat rest
    have hdrop : st.discard_pile.dropLast = rest := by
      rw [hdisc]
      exact List.dropLast_concat
    constructor
    · simp [refill_draw_pile_if_needed, hempty, hlen, hlast]
    · simp only [refill_draw_pile_if_needed, hempty, if_pos rfl, if_neg hlen, hlast, hdrop]
      exact hsh rest
  · intro hle
    have : refill_draw_pile_if_needed sh st = st := by
      simp [refill_draw_pile_if_needed, hempty, hle]
    exact ⟨this, by rw [this, hempty]⟩

/-- A state with an exhausted draw pile and three discard cards, ready for a
recycle. -/
def stRecycle : GameState :=
  { draw_pile := []
    discard_pile := [⟨some Color.Green, Value.num 7⟩, ⟨some Color.Red, Value.num 9⟩,
                     ⟨some Color.Blue, Value.num 4⟩]
    players := [⟨"You", true, [⟨some Color.Red, Value.num 3⟩]⟩,
                ⟨"Computer", false, [⟨some Color.Yellow, Value.num 2⟩]⟩]
    current_idx := 0
    direction := 1
    current_color := some Color.Blue
    current_value := some (Value.num 4) }

/-- A state with an exhausted draw pile and a single discard card, where a
recycle has no material and must be a no-op. -/
def stRecycleNoop : GameState :=
  { stRecycle with discard_pile := [⟨some Color.Blue, Value.num 4⟩] }

/-- C6 witness: concrete instantiations of `claim_C6_recycle` — a recycle of
a 3-card discard pile keeps the old top and permutes the other two into the
draw pile, and the 1-card discard pile case is a no-op with an empty pile. -/
theorem claim_C6_recycle_witness :
    ((refill_draw_pile_if_needed id stRecycle).discard_pile
        = [⟨some Color.Blue, Value.num 4⟩]
      ∧ (refill_draw_pile_if_needed id stRecycle).draw_pile.Perm
          [⟨some Color.Green, Value.num 7⟩, ⟨some Color.Red, Value.num 9⟩])
    ∧ (refill_draw_pile_if_needed id stRecycleNoop = stRecycleNoop
      ∧ (refill_draw_pile_if_needed id stRecycleNoop).draw_pile = []) :=
  ⟨(claim_C6_recycle id stRecycle (fun l => List.Perm.refl l) rfl).1
      [⟨some Color.Green, Value.num 7⟩, ⟨some Color.Red, Value.num 9⟩]
      ⟨some Color.Blue, Value.num 4⟩ rfl (by decide),
    (claim_C6_recycle id stRecycleNoop (fun l => List.Perm.refl l) rfl).2 (by decide)⟩

/-! ### C8: the UNO declaration penalty -/

/-- A state whose human player is down to one card with both piles exhausted
(the other 106 cards are in the computer's hand, preserving conservation). -/
def stUnoShort : GameState :=
  { draw_pile := []
    discard_pile := [⟨some Color.Green, Value.num 7⟩]
    players := [⟨"You", true, [⟨some Color.Red, Value.num 5⟩]⟩,
                ⟨"Computer", false,
                  restOfDeck [⟨some Color.Green, Value.num 7⟩,
                              ⟨some Color.Red, Value.num 5⟩]⟩]
    current_idx := 0
    direction := 1
    current_color := some Color.Green
    current_value := some (Value.num 7) }

/-- C8 counterexample: a human player left with exactly one card who fails
the UNO declaration does NOT always end with exactly 3 cards — when the draw
pile is empty and the discard pile has no recyclable material, the 2-card
penalty draw comes up empty and the hand stays at 1 card. -/
theorem claim_C8_counterexample :
    (getHand stUnoShort 0).length = 1
    ∧ (stUnoShort.players.getD 0 dummyPlayer).is_human = true
    ∧ (getHand (maybe_check_uno id false 0 stUnoShort) 0).length = 1
    ∧ (getHand (maybe_check_uno id false 0 stUnoShort) 0).length ≠ 3 := by
  decide

/-- C8 amended: when a human player is left with exactly one card and the
declaration is supplied as `false`, the core draws a 2-card penalty; the hand
grows by exactly 2 (from 1 to 3 cards) whenever, after the refill check, the
draw pile holds at least 2 cards — otherwise it grows by as many cards as
are available. -/
theorem claim_C8_amended_penalty (sh : List Card → List Card) (pIdx : Nat)
    (st : GameState) (hh : (getHand st pIdx).length = 1)
    (hhum : (st.players.getD pIdx dummyPlayer).is_human = true)
    (hp : pIdx < st.players.length)
    (havail : 2 ≤ (refill_draw_pile_if_needed sh st).draw_pile.length) :
    (getHand (maybe_check_uno sh false pIdx st) pIdx).length = 3 := by
  have hp1 : pIdx < (refill_draw_pile_if_needed sh st).players.length := by
    simpa using hp
  unfold maybe_check_uno
  rw [if_pos hh, if_pos hhum]
  show (getHand (setHand (refill_draw_pile_if_needed sh st) pIdx
      (getHand (refill_draw_pile_if_needed sh st) pIdx
        ++ (drawCards (refill_draw_pile_if_needed sh st).draw_pile 2).1)) pIdx).length = 3
  rw [getHand_setHand_self _ _ _ hp1, getHand_refill]
  simp only [List.length_append, hh, drawCards_length_min]
  omega

/-- A state whose human player is down to one card with three cards left in
the draw pile. -/
def stUnoPenalty : GameState :=
  { draw_pile := [⟨some Color.Blue, Value.num 1⟩, ⟨some Color.Blue, Value.num 2⟩,
                  ⟨some Color.Blue, Value.num 3⟩]
    discard_pile := [⟨some Color.Green, Value.num 7⟩]
    players := [⟨"You", true, [⟨some Color.Red, Value.num 5⟩]⟩,
                ⟨"Computer", false,
                  restOfDeck [⟨some Color.Blue, Value.num 1⟩, ⟨some Color.Blue, Value.num 2⟩,
                              ⟨some Color.Blue, Value.num 3⟩, ⟨some Color.Green, Value.num 7⟩,
                              ⟨some Color.Red, Value.num 5⟩]⟩]
    current_idx := 0
    direction := 1
    current_color := some Color.Green
    current_value := some (Value.num 7) }

/-- C8 amended witness: with three cards in the draw pile the penalized hand
ends with exactly 3 cards. -/
theorem claim_C8_amended_penalty_witness :
    (getHand (maybe_check_uno id false 0 stUnoPenalty) 0).length = 3 :=
  claim_C8_amended_penalty id 0 stUnoPenalty (by decide) (by decide) (by decide) (by decide)

/-! ### Game construction (`UnoGame.__init__`) and reachable states -/

/-- One pass of the dealing loop body (`for p in self.players: p.draw(pile, 1)`):
each player in order draws one card from the pile. -/
def dealPlayers : List Card → List Player → List Card × List Player
  | pile, [] => (pile, [])
  | pile, p :: ps =>
    let r := drawCards pile 1
    let rest := dealPlayers r.2 ps
    (rest.1, { p with hand := p.hand ++ r.1 } :: rest.2)

def dealRound (st : GameState) : GameState :=
  let r := dealPlayers st.draw_pile st.players
  { st with draw_pile := r.1, players := r.2 }

/-- The outer dealing loop `for _ in range(7)`. -/
def deal : Nat → GameState → GameState
  | 0, st => st
  | n + 1, st => deal n (dealRound st)

/-- `UnoGame._flip_initial_discard_and_apply_effect`: flip the top draw card;
a wild is pushed to the bottom and the pile reshuffled (repeat); the first
non-wild card becomes the initial discard and sets the active color/value,
and a Skip/Reverse (resp. Draw Two) startup effect skips the first player
(resp. makes them draw 2 and then skips them).  The source's unbounded
`while True` is given explicit fuel; `none` models non-termination of the
loop or the exception a pop from an empty pile would raise. -/
def flip_initial (sh : List Card → List Card) : Nat → GameState → Option GameState
  | 0, _ => none
  | fuel + 1, st =>
    match st.draw_pile.getLast? with
    | none => none
    | some top =>
      let rest := st.draw_pile.dropLast
      if top.is_wild then
        flip_initial sh fuel { st with draw_pile := sh (top :: rest) }
      else
        let st1 := { st with
          draw_pile := rest
          discard_pile := st.discard_pile ++ [top]
          current_color := top.color
          current_value := some top.value }
        if top.value = Value.skip ∨ top.value = Value.reverse then
          some { st1 with current_idx := next_player_index st1 }
        else if top.value = Value.drawTwo then
          let r := drawCards st1.draw_pile 2
          let st2 := { setHand st1 st1.current_idx (getHand st1 st1.current_idx ++ r.1) with
            draw_pile := r.2 }
          some { st2 with current_idx := next_player_index st2 }
        else
          some st1

/-- The state `UnoGame.__init__` sets up before dealing: the shuffled deck,
two players ("You" human, "Computer" automated), index 0, direction `1`, and
no active color/value yet. -/
def initial_state (sh : List Card → List Card) : GameState :=
  { draw_pile := sh build_deck
    discard_pile := []
    players := [⟨"You", true, []⟩, ⟨"Computer", false, []⟩]
    current_idx := 0
    direction := 1
    current_color := none
    current_value := none }

/-- `UnoGame.__init__(seed)`: build and shuffle the deck (the shuffle the
seeded RNG produces is the explicit `sh`), create the two players, deal 7
cards each, then flip the initial discard and apply its startup effect. -/
def init_game (sh : List Card → List Card) (fuel : Nat) : Option GameState :=
  flip_initial sh fuel (deal 7 (initial_state sh))

/-- All `random.shuffle` does to a Python list is permute it; for the card
count bookkeeping only length preservation is needed. -/
def PreservesLength (sh : List Card → List Card) : Prop :=
  ∀ l, (sh l).length = l.length

/-- The states the engine can be in: an initial state produced by
`UnoGame.__init__` under some length-preserving shuffle, closed under every
mutation the source performs — `place_card` (with the source's implicit
precondition that the played card is in the player's hand, since
`list.remove` would raise otherwise), the refill-then-draw sequence, the UNO
check, the call sites' `current_idx` advance, and a bare refill. -/
inductive Reachable : GameState → Prop
  | init (sh : List Card → List Card) (hsh : PreservesLength sh) (fuel : Nat)
      (s : GameState) : init_game sh fuel = some s → Reachable s
  | place (sh : List Card → List Card) (hsh : PreservesLength sh) (fb : Color)
      (pIdx : Nat) (card : Card) (chosen : Option Color) (s : GameState)
      (hmem : card ∈ getHand s pIdx) (hp : pIdx < s.players.length) :
      Reachable s → Reachable (place_card sh fb pIdx card chosen s)
  | drawN (sh : List Card → List Card) (hsh : PreservesLength sh) (pIdx n : Nat)
      (s : GameState) (hp : pIdx < s.players.length) :
      Reachable s → Reachable (draw_for sh pIdx n s)
  | uno (sh : List Card → List Card) (hsh : PreservesLength sh) (said : Bool)
      (pIdx : Nat) (s : GameState) (hp : pIdx < s.players.length) :
      Reachable s → Reachable (maybe_check_uno sh said pIdx s)
  | advance (s : GameState) :
      Reachable s → Reachable { s with current_idx := next_player_index s }
  | refillStep (sh : List Card → List Card) (hsh : PreservesLength sh)
      (s : GameState) : Reachable s → Reachable (refill_draw_pile_if_needed sh s)

/-! ### Card counting -/

def handsSum (ps : List Player) : Nat :=
  (ps.map (fun p => p.hand.length)).sum

/-- The conserved quantity: `|draw pile| + |discard pile| + Σ|hands|`. -/
def totalCards (st : GameState) : Nat :=
  st.draw_pile.length + st.discard_pile.length + handsSum st.players

lemma build_deck_length : build_deck.length = 108 := by decide

lemma totalCards_update_idx (st : GameState) (i : Nat) :
    totalCards { st with current_idx := i } = totalCards st := rfl

lemma handsSum_set (ps : List Player) (i : Nat) (p : Player) (hi : i < ps.length) :
    handsSum (ps.set i p) + (ps.getD i dummyPlayer).hand.length
      = handsSum ps + p.hand.length := by
  induction ps generalizing i with
  | nil => simp at hi
  | cons a as ih =>
    cases i with
    | zero => simp [handsSum]; omega
    | succ j =>
      have hj : j < as.length := by simpa using hi
      have := ih j hj
      simp only [List.set_cons_succ, List.getD_cons_succ, handsSum, List.map_cons,
        List.sum_cons] at this ⊢
      omega

lemma totalCards_setHand (st : GameState) (i : Nat) (h : List Card)
    (hi : i < st.players.length) :
    totalCards (setHand st i h) + (getHand st i).length = totalCards st + h.length := by
  have := handsSum_set st.players i { st.players.getD i dummyPlayer with hand := h } hi
  simp only [totalCards, setHand, getHand] at this ⊢
  omega

lemma refill_total (sh : List Card → List Card) (hsh : PreservesLength sh)
    (st : GameState) :
    totalCards (refill_draw_pile_if_needed sh st) = totalCards st := by
  unfold refill_draw_pile_if_needed
  split
  · next hdraw =>
    split
    · rfl
    · next hlen =>
      cases hlast : st.discard_pile.getLast? with
      | none => rfl
      | some top =>
        have hne : st.discard_pile ≠ [] := by
          intro habs
          rw [habs] at hlast
          simp at hlast
        have hpos : 0 < st.discard_pile.length := List.length_pos.mpr hne
        simp only [totalCards, hdraw, List.length_nil, hsh st.discard_pile.dropLast,
          List.length_dropLast, List.length_cons]
        omega
  · rfl

lemma next_player_index_lt (st : GameState) (h : 0 < st.players.length) :
    next_player_index st < st.players.length := by
  unfold next_player_index
  have hb : (st.players.length : Int) ≠ 0 := by
    simpa using Nat.pos_iff_ne_zero.mp h
  have h0 : 0 ≤ ((st.current_idx : Int) + st.direction).emod (st.players.length : Int) :=
    Int.emod_nonneg _ hb
  have h1 : ((st.current_idx : Int) + st.direction).emod (st.players.length : Int)
      < (st.players.length : Int) :=
    Int.emod_lt_of_pos _ (by exact_mod_cast h)
  omega

lemma resolveForcedDraw_total (sh : List Card → List Card) (hsh : PreservesLength sh)
    (n : Nat) (st : GameState) (hpl : 0 < st.players.length) :
    totalCards (resolveForcedDraw sh n st) = totalCards st := by
  have hpl1 : 0 < (refill_draw_pile_if_needed sh st).players.length := by simpa using hpl
  have hvict : next_player_index st < (refill_draw_pile_if_needed sh st).players.length := by
    simpa using next_player_index_lt st hpl
  unfold resolveForcedDraw
  rw [totalCards_update_idx, totalCards_update_idx]
  have hset := totalCards_setHand (refill_draw_pile_if_needed sh st) (next_player_index st)
    (getHand (refill_draw_pile_if_needed sh st) (next_player_index st)
      ++ (drawCards (refill_draw_pile_if_needed sh st).draw_pile n).1) hvict
  have hsplit := drawCards_length_split n (refill_draw_pile_if_needed sh st).draw_pile
  have hrtot := refill_total sh hsh st
  simp only [totalCards, setHand_draw_pile, setHand_discard_pile,
    List.length_append] at hset hrtot ⊢
  omega

lemma placeBase_total (pIdx : Nat) (card : Card) (cc : Option Color) (cv : Option Value)
    (st : GameState) (hmem : card ∈ getHand st pIdx) (hp : pIdx < st.players.length) :
    totalCards (placeBase pIdx card cc cv st) = totalCards st := by
  have hhand : 0 < (getHand st pIdx).length :=
    List.length_pos.mpr (List.ne_nil_of_mem hmem)
  have herase : ((getHand st pIdx).erase card).length = (getHand st pIdx).length - 1 :=
    List.length_erase_of_mem hmem
  have hset := totalCards_setHand st pIdx ((getHand st pIdx).erase card) hp
  simp only [placeBase, totalCards, setHand_draw_pile, setHand_discard_pile,
    List.length_append, List.length_cons, List.length_nil] at hset ⊢
  omega

lemma place_card_total (sh : List Card → List Card) (hsh : PreservesLength sh)
    (fb : Color) (pIdx : Nat) (card : Card) (chosen : Option Color) (st : GameState)
    (hmem : card ∈ getHand st pIdx) (hp : pIdx < st.players.length) :
    totalCards (place_card sh fb pIdx card chosen st) = totalCards st := by
  have h1 : ∀ (cc : Option Color) (cv : Option Value),
      totalCards (placeBase pIdx card cc cv st) = totalCards st :=
    fun cc cv => placeBase_total pIdx card cc cv st hmem hp
  have h2 : ∀ (cc : Option Color) (cv : Option Value),
      0 < (placeBase pIdx card cc cv st).players.length := by
    intro cc cv
    rw [placeBase_players_length]
    omega
  unfold place_card
  split_ifs <;>
    first
      | (rw [totalCards_update_idx]; exact h1 _ _)
      | exact (resolveForcedDraw_total sh hsh _ _ (h2 _ _)).trans (h1 _ _)

lemma place_card_players_length (sh : List Card → List Card) (fb : Color) (pIdx : Nat)
    (card : Card) (chosen : Option Color) (st : GameState) :
    (place_card sh fb pIdx card chosen st).players.length = st.players.length := by
  unfold place_card
  split_ifs <;> simp

lemma place_card_direction (sh : List Card → List Card) (fb : Color) (pIdx : Nat)
    (card : Card) (chosen : Option Color) (st : GameState) :
    (place_card sh fb pIdx card chosen st).direction = st.direction := by
  unfold place_card
  split_ifs <;> simp

lemma draw_for_total (sh : List Card → List Card) (hsh : PreservesLength sh)
    (pIdx n : Nat) (st : GameState) (hp : pIdx < st.players.length) :
    totalCards (draw_for sh pIdx n st) = totalCards st := by
  have hp1 : pIdx < (refill_draw_pile_if_needed sh st).players.length := by simpa using hp
  have hset := totalCards_setHand (refill_draw_pile_if_needed sh st) pIdx
    (getHand (refill_draw_pile_if_needed sh st) pIdx
      ++ (drawCards (refill_draw_pile_if_needed sh st).draw_pile n).1) hp1
  have hsplit := drawCards_length_split n (refill_draw_pile_if_needed sh st).draw_pile
  have hrtot := refill_total sh hsh st
  unfold draw_for
  simp only [totalCards, setHand_draw_pile, setHand_discard_pile,
    List.length_append] at hset hrtot ⊢
  omega

lemma draw_for_players_length (sh : List Card → List Card) (pIdx n : Nat)
    (st : GameState) : (draw_for sh pIdx n st).players.length = st.players.length := by
  simp [draw_for]

lemma draw_for_direction (sh : List Card → List Card) (pIdx n : Nat)
    (st : GameState) : (draw_for sh pIdx n st).direction = st.direction := by
  simp [draw_for]

lemma maybe_check_uno_total (sh : List Card → List Card) (hsh : PreservesLength sh)
    (said : Bool) (pIdx : Nat) (st : GameState) (hp : pIdx < st.players.length) :
    totalCards (maybe_check_uno sh said pIdx st) = totalCards st := by
  unfold maybe_check_uno
  split_ifs
  · rfl
  · show totalCards (draw_for sh pIdx 2 st) = totalCards st
    exact draw_for_total sh hsh pIdx 2 st hp
  · rfl
  · rfl

lemma maybe_check_uno_players_length (sh : List Card → List Card) (said : Bool)
    (pIdx : Nat) (st : GameState) :
    (maybe_check_uno sh said pIdx st).players.length = st.players.length := by
  unfold maybe_check_uno
  split_ifs
  · rfl
  · show (draw_for sh pIdx 2 st).players.length = st.players.length
    exact draw_for_players_length sh pIdx 2 st
  · rfl
  · rfl

lemma maybe_check_uno_direction (sh : List Card → List Card) (said : Bool)
    (pIdx : Nat) (st : GameState) :
    (maybe_check_uno sh said pIdx st).direction = st.direction := by
  unfold maybe_check_uno
  split_ifs
  · rfl
  · show (draw_for sh pIdx 2 st).direction = st.direction
    exact draw_for_direction sh pIdx 2 st
  · rfl
  · rfl

/-! ### Invariants of the construction phase -/

lemma dealPlayers_conserve (ps : List Player) (pile : List Card) :
    (dealPlayers pile ps).1.length + handsSum (dealPlayers pile ps).2
      = pile.length + handsSum ps := by
  induction ps generalizing pile with
  | nil => simp [dealPlayers, handsSum]
  | cons p ps ih =>
    have hsplit := drawCards_length_split 1 pile
    have := ih (drawCards pile 1).2
    simp only [dealPlayers, handsSum, List.map_cons, List.sum_cons,
      List.length_append] at this ⊢
    omega

lemma dealPlayers_length (ps : List Player) (pile : List Card) :
    (dealPlayers pile ps).2.length = ps.length := by
  induction ps generalizing pile with
  | nil => simp [dealPlayers]
  | cons p ps ih => simp [dealPlayers, ih]

lemma dealRound_total (st : GameState) : totalCards (dealRound st) = totalCards st := by
  have := dealPlayers_conserve st.players st.draw_pile
  simp only [dealRound, totalCards] at this ⊢
  omega

lemma dealRound_players_length (st : GameState) :
    (dealRound st).players.length = st.players.length := by
  simp [dealRound, dealPlayers_length]

lemma dealRound_direction (st : GameState) : (dealRound st).direction = st.direction := rfl

lemma dealRound_current_idx (st : GameState) :
    (dealRound st).current_idx = st.current_idx := rfl

lemma deal_total (n : Nat) (st : GameState) : totalCards (deal n st) = totalCards st := by
  induction n generalizing st with
  | zero => rfl
  | succ n ih => rw [deal, ih, dealRound_total]

lemma deal_players_length (n : Nat) (st : GameState) :
    (deal n st).players.length = st.players.length := by
  induction n generalizing st with
  | zero => rfl
  | succ n ih => rw [deal, ih, dealRound_players_length]

lemma deal_direction (n : Nat) (st : GameState) : (deal n st).direction = st.direction := by
  induction n generalizing st with
  | zero => rfl
  | succ n ih => rw [deal, ih, dealRound_direction]

lemma deal_current_idx (n : Nat) (st : GameState) :
    (deal n st).current_idx = st.current_idx := by
  induction n generalizing st with
  | zero => rfl
  | succ n ih => rw [deal, ih, dealRound_current_idx]

lemma flip_initial_inv (sh : List Card → List Card) (hsh : PreservesLength sh)
    (fuel : Nat) :
    ∀ (st s : GameState), st.current_idx < st.players.length →
      flip_initial sh fuel st = some s →
      totalCards s = totalCards st ∧ s.players.length = st.players.length
        ∧ s.direction = st.direction := by
  induction fuel with
  | zero =>
    intro st s _ h
    simp [flip_initial] at h
  | succ n ih =>
    intro st s hidx h
    rw [flip_initial] at h
    cases hlast : st.draw_pile.getLast? with
    | none =>
      rw [hlast] at h
      simp at h
    | some top =>
      rw [hlast] at h
      have hne : st.draw_pile ≠ [] := by
        intro habs
        rw [habs] at hlast
        simp at hlast
      have hpos : 0 < st.draw_pile.length := List.length_pos.mpr hne
      simp only at h
      by_cases hw : top.is_wild
      · rw [if_pos hw] at h
        have hrec := ih { st with draw_pile := sh (top :: st.draw_pile.dropLast) } s
          (by simpa using hidx) h
        refine ⟨?_, by simpa using hrec.2.1, by simpa using hrec.2.2⟩
        rw [hrec.1]
        simp only [totalCards, hsh (top :: st.draw_pile.dropLast), List.length_cons,
          List.length_dropLast]
        omega
      · rw [if_neg hw] at h
        split_ifs at h
        · -- initial Skip or Reverse
          cases h
          refine ⟨?_, rfl, rfl⟩
          simp only [totalCards, List.length_append, List.length_cons, List.length_nil,
            List.length_dropLast]
          omega
        · -- initial Draw Two: the first player draws two and is skipped
          cases h
          have hidx1 : st.current_idx
              < (({ st with
                  draw_pile := st.draw_pile.dropLast
                  discard_pile := st.discard_pile ++ [top]
                  current_color := top.color
                  current_value := some top.value } : GameState)).players.length := hidx
          have hset := totalCards_setHand
            { st with
              draw_pile := st.draw_pile.dropLast
              discard_pile := st.discard_pile ++ [top]
              current_color := top.color
              current_value := some top.value }
            st.current_idx
            (getHand { st with
                draw_pile := st.draw_pile.dropLast
                discard_pile := st.discard_pile ++ [top]
                current_color := top.color
                current_value := some top.value } st.current_idx
              ++ (drawCards st.draw_pile.dropLast 2).1) hidx1
          have hsplit := drawCards_length_split 2 st.draw_pile.dropLast
          refine ⟨?_, by simp [setHand], rfl⟩
          simp only [totalCards, setHand_draw_pile, setHand_discard_pile,
            List.length_append, List.length_cons, List.length_nil,
            List.length_dropLast] at hset hsplit ⊢
          omega
        · -- initial numbered card: no startup effect
          cases h
          refine ⟨?_, rfl, rfl⟩
          simp only [totalCards, List.length_append, List.length_cons, List.length_nil,
            List.length_dropLast]
          omega

lemma initial_state_inv (sh : List Card → List Card) (hsh : PreservesLength sh) :
    totalCards (initial_state sh) = 108
      ∧ (initial_state sh).players.length = 2
      ∧ (initial_state sh).direction = 1 := by
  refine ⟨?_, rfl, rfl⟩
  simp [initial_state, totalCards, handsSum, hsh build_deck, build_deck_length]

lemma init_game_inv (sh : List Card → List Card) (hsh : PreservesLength sh)
    (fuel : Nat) (s : GameState) (h : init_game sh fuel = some s) :
    totalCards s = 108 ∧ s.players.length = 2 ∧ s.direction = 1 := by
  unfold init_game at h
  have hidx : (deal 7 (initial_state sh)).current_idx
      < (deal 7 (initial_state sh)).players.length := by
    rw [deal_current_idx, deal_players_length]
    exact Nat.zero_lt_two
  obtain ⟨ht, hl, hd⟩ := flip_initial_inv sh hsh fuel (deal 7 (initial_state sh)) s hidx h
  obtain ⟨h0t, h0l, h0d⟩ := initial_state_inv sh hsh
  refine ⟨?_, ?_, ?_⟩
  · rw [ht, deal_total, h0t]
  · rw [hl, deal_players_length, h0l]
  · rw [hd, deal_direction, h0d]

/-- The combined invariant every reachable state satisfies. -/
lemma reachable_inv (s : GameState) (h : Reachable s) :
    totalCards s = 108 ∧ s.players.length = 2 ∧ s.direction = 1 := by
  induction h with
  | init sh hsh fuel s hinit => exact init_game_inv sh hsh fuel s hinit
  | place sh hsh fb pIdx card chosen s hmem hp _ ih =>
    exact ⟨(place_card_total sh hsh fb pIdx card chosen s hmem hp).trans ih.1,
      (place_card_players_length sh fb pIdx card chosen s).trans ih.2.1,
      (place_card_direction sh fb pIdx card chosen s).trans ih.2.2⟩
  | drawN sh hsh pIdx n s hp _ ih =>
    exact ⟨(draw_for_total sh hsh pIdx n s hp).trans ih.1,
      (draw_for_players_length sh pIdx n s).trans ih.2.1,
      (draw_for_direction sh pIdx n s).trans ih.2.2⟩
  | uno sh hsh said pIdx s hp _ ih =>
    exact ⟨(maybe_check_uno_total sh hsh said pIdx s hp).trans ih.1,
      (maybe_check_uno_players_length sh said pIdx s).trans ih.2.1,
      (maybe_check_uno_direction sh said pIdx s).trans ih.2.2⟩
  | advance s _ ih => exact ⟨ih.1, ih.2.1, ih.2.2⟩
  | refillStep sh hsh s _ ih =>
    exact ⟨(refill_total sh hsh s).trans ih.1, by simpa using ih.2.1, by simpa using ih.2.2⟩

/-- An arbitrary default state, used only to extract the payload of an
`Option GameState`. -/
def dummyState : GameState :=
  { draw_pile := []
    discard_pile := []
    players := []
    current_idx := 0
    direction := 1
    current_color := none
    current_value := none }

/-! ### C4: deck conservation -/

/-- C4: every state reachable from construction — through dealing, the
initial flip, card placement with its effects, draws, recycling, penalty
draws and turn advances — has `|draw pile| + |discard pile| + Σ|hands|`
equal to 108. -/
theorem claim_C4_deck_conservation (s : GameState) (h : Reachable s) :
    totalCards s = 108 :=
  (reachable_inv s h).1

/-- C4 witness: the concrete game constructed with the identity shuffle
carries exactly 108 cards. -/
theorem claim_C4_deck_conservation_witness :
    totalCards ((init_game id 5).getD dummyState) = 108 :=
  claim_C4_deck_conservation _ (Reachable.init id (fun l => rfl) 5 _ (by rfl))

/-! ### C10: the direction field is constant -/

/-- C10: `direction` is `1` at construction and no operation ever mutates
it — in particular playing a Reverse does not flip it — so every reachable
state still has `direction = 1` and every next-player computation uses
direction `+1`. -/
theorem claim_C10_direction_constant (s : GameState) (h : Reachable s) :
    s.direction = 1 :=
  (reachable_inv s h).2.2

/-- C10 witness: the state reached by constructing the game with the
identity shuffle and then advancing the turn still has direction `1`. -/
theorem claim_C10_direction_constant_witness :
    ({ (init_game id 5).getD dummyState with
        current_idx := next_player_index ((init_game id 5).getD dummyState) } :
      GameState).direction = 1 :=
  claim_C10_direction_constant _
    (Reachable.advance _ (Reachable.init id (fun l => rfl) 5 _ (by rfl)))

end Uno

namespace Uno

/-- `num_counts[v]` of `UnoGame._cpu_choose_best_card`: how many cards of the
hand carry value `v` (only queried at digit values). -/
def numCount (hand : List Card) (v : Value) : Nat :=
  (hand.filter (fun c => decide (c.value = v))).length

/-- `col_counts[col]` of `UnoGame._cpu_choose_best_card`. -/
def colCount (hand : List Card) (col : Color) : Nat :=
  (hand.filter (fun c => decide (c.color = some col))).length

/-- The `score` closure of `UnoGame._cpu_choose_best_card`, with the
captured context passed explicitly (`playableLen` is `len(playable)`, `cv`
is `self.current_value`, `has_color_match` is
`has_color_match_other_than_wild`); the source's float `0.2` is the exact
rational `1 / 5`. -/
def cpuScore (hand : List Card) (playableLen : Nat) (cv : Option Value)
    (opponent_cards : Nat) (has_color_match : Bool) (card : Card) : ℚ :=
  let s : ℚ := 0
  let s := if card.value.isDigit = true ∧ 1 < numCount hand card.value then s + 10 else s
  let s :=
    match card.color with
    | some col =>
        s + 2 * (colCount hand col : ℚ)
          + (1 / 5) * ((max 0 ((colCount hand col : Int) - 2) : Int) : ℚ)
    | none => s
  let s := if card.value = Value.skip ∨ card.value = Value.reverse then
      s + (if opponent_cards ≤ 2 then (7 : ℚ) else 3) else s
  let s := if card.value = Value.drawTwo then
      s + (if opponent_cards ≤ 3 then (12 : ℚ) else 8) else s
  let s := if card.value = Value.wild then
      (if playableLen = 1 then s + 1 + 6 else s + 1) else s
  let s := if card.value = Value.wild4 then
      (if has_color_match then s - 100
       else if opponent_cards ≤ 3 then s + 9 + 6 else s + 9) else s
  let s := if some card.value = cv ∧ card.value.isDigit = true then s + 2 else s
  s

/-- `UnoGame._cpu_choose_best_card(player, playable, opponent_cards)` up to
the card choice (`best = max(playable, key=score)`, which keeps the first
maximal element); `none` models the `ValueError` Python's `max` raises on an
empty sequence (callers guarantee non-emptiness).  The chosen color for a
wild (`_cpu_choose_color`) does not affect which card is picked. -/
def cpu_choose_best_card (hand playable : List Card) (cc : Option Color)
    (cv : Option Value) (opponent_cards : Nat) : Option Card :=
  let has_color_match := hand.any (fun c => decide (c.color = cc) && !c.is_wild)
  let score := cpuScore hand playable.length cv opponent_cards has_color_match
  match playable with
  | [] => none
  | c :: cs => some (cs.foldl (fun best x => if score best < score x then x else best) c)

lemma foldl_best_mem (score : Card → ℚ) (l : List Card) (c : Card) :
    List.foldl (fun best x => if score best < score x then x else best) c l ∈ c :: l := by
  induction l generalizing c with
  | nil => simp
  | cons x xs ih =>
    simp only [List.foldl_cons]
    by_cases hcx : score c < score x
    · rw [if_pos hcx]
      rcases List.mem_cons.mp (ih x) with h | h
      · rw [h]
        exact List.mem_cons_of_mem _ (List.mem_cons_self _ _)
      · exact List.mem_cons_of_mem _ (List.mem_cons_of_mem _ h)
    · rw [if_neg hcx]
      rcases List.mem_cons.mp (ih c) with h | h
      · rw [h]
        exact List.mem_cons_self _ _
      · exact List.mem_cons_of_mem _ (List.mem_cons_of_mem _ h)

lemma foldl_best_start_le (score : Card → ℚ) (l : List Card) (c : Card) :
    score c ≤ score (List.foldl (fun best x => if score best < score x then x else best) c l) := by
  induction l generalizing c with
  | nil => rw [List.foldl_nil]
  | cons x xs ih =>
    simp only [List.foldl_cons]
    refine le_trans ?_ (ih (if score c < score x then x else c))
    by_cases hcx : score c < score x
    · rw [if_pos hcx]
      exact le_of_lt hcx
    · rw [if_neg hcx]

lemma foldl_best_ge (score : Card → ℚ) (l : List Card) (c y : Card) (hy : y ∈ c :: l) :
    score y ≤ score (List.foldl (fun best x => if score best < score x then x else best) c l) := by
  induction l generalizing c with
  | nil =>
    have h : y = c := by simpa using hy
    rw [h, List.foldl_nil]
  | cons x xs ih =>
    simp only [List.foldl_cons]
    rcases List.mem_cons.mp hy with h | h
    · rw [h]
      refine le_trans ?_ (foldl_best_start_le score xs (if score c < score x then x else c))
      by_cases hcx : score c < score x
      · rw [if_pos hcx]
        exact le_of_lt hcx
      · rw [if_neg hcx]
    · rcases List.mem_cons.mp h with h | h
      · rw [h]
        refine le_trans ?_ (foldl_best_start_le score xs (if score c < score x then x else c))
        by_cases hcx : score c < score x
        · rw [if_pos hcx]
        · rw [if_neg hcx]
          exact not_lt.mp hcx
      · exact ih (if score c < score x then x else c) (List.mem_cons_of_mem _ h)

/-- The concrete CPU hand of the counterexample: two `4`s (Red, Green), a
Blue Skip and five further Blue digit cards with distinct digits. -/
def handC9 : List Card :=
  [⟨some Color.Red, Value.num 4⟩, ⟨some Color.Green, Value.num 4⟩,
   ⟨some Color.Blue, Value.skip⟩, ⟨some Color.Blue, Value.num 1⟩,
   ⟨some Color.Blue, Value.num 2⟩, ⟨some Color.Blue, Value.num 3⟩,
   ⟨some Color.Blue, Value.num 5⟩, ⟨some Color.Blue, Value.num 7⟩]

/-- The score function as instantiated by `cpu_choose_best_card` on the
counterexample inputs (active color Blue, active value 4, opponent holding
3 cards). -/
def scoreC9 : Card → ℚ :=
  cpuScore handC9 handC9.length (some (Value.num 4)) 3
    (handC9.any fun c => decide (c.color = some Color.Blue) && !c.is_wild)

lemma scoreC9_R4 : scoreC9 ⟨some Color.Red, Value.num 4⟩ = 14 := by
  simp only [scoreC9, cpuScore]
  rw [if_pos (show Value.isDigit (Value.num 4) = true ∧ 1 < numCount handC9 (Value.num 4)
        from ⟨rfl, by decide⟩),
    if_neg (show ¬(Value.num 4 = Value.skip ∨ Value.num 4 = Value.reverse) from by decide),
    if_neg (show ¬(Value.num 4 = Value.drawTwo) from by decide),
    if_neg (show ¬(Value.num 4 = Value.wild) from by decide),
    if_neg (show ¬(Value.num 4 = Value.wild4) from by decide),
    if_pos (show True ∧ Value.isDigit (Value.num 4) = true from ⟨trivial, rfl⟩),
    show colCount handC9 Color.Red = 1 from by decide]
  norm_num

lemma scoreC9_G4 : scoreC9 ⟨some Color.Green, Value.num 4⟩ = 14 := by
  simp only [scoreC9, cpuScore]
  rw [if_pos (show Value.isDigit (Value.num 4) = true ∧ 1 < numCount handC9 (Value.num 4)
        from ⟨rfl, by decide⟩),
    if_neg (show ¬(Value.num 4 = Value.skip ∨ Value.num 4 = Value.reverse) from by decide),
    if_neg (show ¬(Value.num 4 = Value.drawTwo) from by decide),
    if_neg (show ¬(Value.num 4 = Value.wild) from by decide),
    if_neg (show ¬(Value.num 4 = Value.wild4) from by decide),
    if_pos (show True ∧ Value.isDigit (Value.num 4) = true from ⟨trivial, rfl⟩),
    show colCount handC9 Color.Green = 1 from by decide]
  norm_num

lemma scoreC9_BSkip : scoreC9 ⟨some Color.Blue, Value.skip⟩ = 79 / 5 := by
  simp only [scoreC9, cpuScore, Value.isDigit]
  simp only [show ((3:ℕ) ≤ 2) = False from by simp, show ((3:ℕ) ≤ 3) = True from by simp,
    show (Value.skip = Value.drawTwo) = False from by simp,
    show (Value.skip = Value.wild) = False from by simp,
    show (Value.skip = Value.wild4) = False from by simp,
    show (false = true) = False from by simp,
    false_and, true_or, if_true, if_false, ite_true, ite_false, false_or, and_true, and_false]
  rw [show colCount handC9 Color.Blue = 6 from by decide,
    show (max (0:ℤ) (((6:ℕ):ℤ) - 2)) = 4 from by decide]
  norm_num

end Uno

namespace Uno

/-- C9 counterexample: a CPU hand with a Red 4 and a Green 4 (the only
duplicated digit), a Blue Skip and five further Blue cards; with active
color Blue and active value 4 every hand card is playable (both 4s and the
Skip included) and the opponent holds 3 > 2 cards — yet the CPU does NOT
select a 4: color accumulation scores the Blue Skip 3 + 2·6 + 0.2·4 = 15.8
against each 4's 10 + 2·1 + 2 = 14. -/
theorem claim_C9_counterexample :
    numCount handC9 (Value.num 4) = 2
    ∧ (((List.finRange 10).filter (fun d => decide (d ≠ 4))).all
        (fun d => decide (numCount handC9 (Value.num d) ≤ 1))) = true
    ∧ playable_cards handC9 Color.Blue (Value.num 4) = handC9
    ∧ (⟨some Color.Red, Value.num 4⟩ : Card) ∈ handC9
    ∧ (⟨some Color.Green, Value.num 4⟩ : Card) ∈ handC9
    ∧ (⟨some Color.Blue, Value.skip⟩ : Card) ∈ handC9
    ∧ 2 < 3
    ∧ (cpu_choose_best_card handC9 handC9 (some Color.Blue) (some (Value.num 4)) 3).isSome
        = true
    ∧ Option.map Card.value
        (cpu_choose_best_card handC9 handC9 (some Color.Blue) (some (Value.num 4)) 3)
      ≠ some (Value.num 4) := by
  have hre : cpu_choose_best_card handC9 handC9 (some Color.Blue) (some (Value.num 4)) 3
      = some (List.foldl (fun best x => if scoreC9 best < scoreC9 x then x else best)
          ⟨some Color.Red, Value.num 4⟩
          [⟨some Color.Green, Value.num 4⟩, ⟨some Color.Blue, Value.skip⟩,
           ⟨some Color.Blue, Value.num 1⟩, ⟨some Color.Blue, Value.num 2⟩,
           ⟨some Color.Blue, Value.num 3⟩, ⟨some Color.Blue, Value.num 5⟩,
           ⟨some Color.Blue, Value.num 7⟩]) := rfl
  obtain ⟨r, hr⟩ : ∃ r, List.foldl (fun best x => if scoreC9 best < scoreC9 x then x else best)
      (⟨some Color.Red, Value.num 4⟩ : Card)
      [⟨some Color.Green, Value.num 4⟩, ⟨some Color.Blue, Value.skip⟩,
       ⟨some Color.Blue, Value.num 1⟩, ⟨some Color.Blue, Value.num 2⟩,
       ⟨some Color.Blue, Value.num 3⟩, ⟨some Color.Blue, Value.num 5⟩,
       ⟨some Color.Blue, Value.num 7⟩] = r := ⟨_, rfl⟩
  rw [hr] at hre
  have hmem : r ∈ (⟨some Color.Red, Value.num 4⟩ : Card) ::
      [⟨some Color.Green, Value.num 4⟩, ⟨some Color.Blue, Value.skip⟩,
       ⟨some Color.Blue, Value.num 1⟩, ⟨some Color.Blue, Value.num 2⟩,
       ⟨some Color.Blue, Value.num 3⟩, ⟨some Color.Blue, Value.num 5⟩,
       ⟨some Color.Blue, Value.num 7⟩] := hr ▸ foldl_best_mem scoreC9 _ _
  have hge : scoreC9 ⟨some Color.Blue, Value.skip⟩ ≤ scoreC9 r :=
    hr ▸ foldl_best_ge scoreC9 _ _ _ (by decide)
  have hval : r.value ≠ Value.num 4 := by
    fin_cases hmem
    · rw [scoreC9_BSkip, scoreC9_R4] at hge
      norm_num at hge
    · rw [scoreC9_BSkip, scoreC9_G4] at hge
      norm_num at hge
    · decide
    · decide
    · decide
    · decide
    · decide
    · decide
  refine ⟨by decide, by decide, by decide, by decide, by decide, by decide, by decide, ?_, ?_⟩
  · rw [hre]
    rfl
  · rw [hre]
    simpa using hval

end Uno

namespace Uno

lemma one_lt_length_of_two_mem {x y : Card} {l : List Card} (hx : x ∈ l) (hy : y ∈ l)
    (hxy : x ≠ y) : 1 < l.length := by
  cases l with
  | nil => simp at hx
  | cons z zs =>
    cases zs with
    | nil =>
      simp only [List.mem_singleton] at hx hy
      exact absurd (hx.trans hy.symm) hxy
    | cons w ws =>
      simp only [List.length_cons]
      omega

/-- The score of a numbered 4 when the hand duplicates the digit 4. -/
lemma cpuScore_num4 (hand : List Card) (L : Nat) (cv : Option Value) (opp : Nat)
    (hcm : Bool) (col : Color) (hnum : 1 < numCount hand (Value.num 4)) :
    cpuScore hand L cv opp hcm ⟨some col, Value.num 4⟩
      = 10 + 2 * (colCount hand col : ℚ)
        + (1 / 5) * ((max 0 ((colCount hand col : Int) - 2) : Int) : ℚ)
        + (if some (Value.num 4) = cv then 2 else 0) := by
  simp only [cpuScore]
  rw [if_pos (show Value.isDigit (Value.num 4) = true ∧ 1 < numCount hand (Value.num 4)
        from ⟨rfl, hnum⟩),
    if_neg (show ¬(Value.num 4 = Value.skip ∨ Value.num 4 = Value.reverse) from by decide),
    if_neg (show ¬(Value.num 4 = Value.drawTwo) from by decide),
    if_neg (show ¬(Value.num 4 = Value.wild) from by decide),
    if_neg (show ¬(Value.num 4 = Value.wild4) from by decide)]
  by_cases hcv : some (Value.num 4) = cv
  · rw [if_pos (⟨hcv, rfl⟩ : some (Value.num 4) = cv ∧ Value.isDigit (Value.num 4) = true),
      if_pos hcv]
    ring
  · rw [if_neg (fun h => hcv h.1), if_neg hcv]
    ring

/-- The score of a colored Skip when the opponent holds more than 2 cards. -/
lemma cpuScore_skip (hand : List Card) (L : Nat) (cv : Option Value) (opp : Nat)
    (hcm : Bool) (col : Color) (hopp : ¬ opp ≤ 2) :
    cpuScore hand L cv opp hcm ⟨some col, Value.skip⟩
      = 2 * (colCount hand col : ℚ)
        + (1 / 5) * ((max 0 ((colCount hand col : Int) - 2) : Int) : ℚ) + 3 := by
  simp only [cpuScore]
  simp only [show (Value.skip = Value.drawTwo) = False from by simp,
    show (Value.skip = Value.wild) = False from by simp,
    show (Value.skip = Value.wild4) = False from by simp,
    show (Value.isDigit Value.skip = true) = False from by simp [Value.isDigit],
    false_and, if_false, ite_false, true_or, if_true, ite_true, and_false, false_or]
  rw [if_neg hopp]
  ring

/-- C9 amended: with two different-colored 4s in the hand (so the digit-4
duplication bonus of +10 applies) and an unrelated Skip, the CPU prefers a 4
over the Skip at `opponent_hand_size > 2` PROVIDED the hand does not hold
more cards of the Skip's color than of (at least) the first 4's color; the
chosen card is then one of the two 4s. -/
theorem claim_C9_amended_prefers_four (hand : List Card) (ca cb ck : Color)
    (cc : Option Color) (cv : Option Value) (opp : Nat)
    (ha : (⟨some ca, Value.num 4⟩ : Card) ∈ hand)
    (hb : (⟨some cb, Value.num 4⟩ : Card) ∈ hand)
    (hab : ca ≠ cb) (hopp : 2 < opp)
    (hcol : colCount hand ck ≤ colCount hand ca) :
    cpu_choose_best_card hand
        [⟨some ca, Value.num 4⟩, ⟨some cb, Value.num 4⟩, ⟨some ck, Value.skip⟩]
        cc cv opp
      = some ⟨some ca, Value.num 4⟩
    ∨ cpu_choose_best_card hand
        [⟨some ca, Value.num 4⟩, ⟨some cb, Value.num 4⟩, ⟨some ck, Value.skip⟩]
        cc cv opp
      = some ⟨some cb, Value.num 4⟩ := by
  have hnum : 1 < numCount hand (Value.num 4) := by
    have hane : (⟨some ca, Value.num 4⟩ : Card) ≠ ⟨some cb, Value.num 4⟩ := by
      intro h
      exact hab (by simpa using congrArg Card.color h)
    have haf : (⟨some ca, Value.num 4⟩ : Card)
        ∈ hand.filter (fun c => decide (c.value = Value.num 4)) :=
      List.mem_filter.mpr ⟨ha, by simp⟩
    have hbf : (⟨some cb, Value.num 4⟩ : Card)
        ∈ hand.filter (fun c => decide (c.value = Value.num 4)) :=
      List.mem_filter.mpr ⟨hb, by simp⟩
    exact one_lt_length_of_two_mem haf hbf hane
  have hre : cpu_choose_best_card hand
      [⟨some ca, Value.num 4⟩, ⟨some cb, Value.num 4⟩, ⟨some ck, Value.skip⟩] cc cv opp
      = some (List.foldl
          (fun best x =>
            if cpuScore hand
                  (List.length
                    [(⟨some ca, Value.num 4⟩ : Card), ⟨some cb, Value.num 4⟩,
                      ⟨some ck, Value.skip⟩])
                  cv opp (hand.any fun c => decide (c.color = cc) && !c.is_wild) best
                < cpuScore hand
                  (List.length
                    [(⟨some ca, Value.num 4⟩ : Card), ⟨some cb, Value.num 4⟩,
                      ⟨some ck, Value.skip⟩])
                  cv opp (hand.any fun c => decide (c.color = cc) && !c.is_wild) x
            then x else best)
          ⟨some ca, Value.num 4⟩
          [⟨some cb, Value.num 4⟩, ⟨some ck, Value.skip⟩]) := rfl
  set sc : Card → ℚ := cpuScore hand
      (List.length
        [(⟨some ca, Value.num 4⟩ : Card), ⟨some cb, Value.num 4⟩, ⟨some ck, Value.skip⟩])
      cv opp (hand.any fun c => decide (c.color = cc) && !c.is_wild) with hsc
  have hk_lt_a : sc ⟨some ck, Value.skip⟩ < sc ⟨some ca, Value.num 4⟩ := by
    rw [hsc, cpuScore_skip _ _ _ _ _ _ (by omega), cpuScore_num4 _ _ _ _ _ _ hnum]
    have h1 : (colCount hand ck : ℚ) ≤ (colCount hand ca : ℚ) := by exact_mod_cast hcol
    have h2 : ((max 0 ((colCount hand ck : Int) - 2) : Int) : ℚ)
        ≤ ((max 0 ((colCount hand ca : Int) - 2) : Int) : ℚ) := by
      have hz : (colCount hand ck : Int) ≤ (colCount hand ca : Int) := by exact_mod_cast hcol
      have : (max 0 ((colCount hand ck : Int) - 2) : Int)
          ≤ max 0 ((colCount hand ca : Int) - 2) := by omega
      exact_mod_cast this
    split_ifs <;> linarith
  have hmem := foldl_best_mem sc [⟨some cb, Value.num 4⟩, ⟨some ck, Value.skip⟩]
    ⟨some ca, Value.num 4⟩
  have hge := foldl_best_start_le sc [⟨some cb, Value.num 4⟩, ⟨some ck, Value.skip⟩]
    ⟨some ca, Value.num 4⟩
  rw [hre]
  rcases List.mem_cons.mp hmem with h | h
  · left
    rw [h]
  · rcases List.mem_cons.mp h with h | h
    · right
      rw [h]
    · exfalso
      rcases List.mem_singleton.mp h with h
      rw [h] at hge
      exact absurd (lt_of_lt_of_le hk_lt_a hge) (lt_irrefl _)

/-- C9 amended witness: the concrete hand `[Red 4, Green 4, Blue Skip]` with
playable set exactly those three cards and 3 opponent cards. -/
theorem claim_C9_amended_prefers_four_witness :
    cpu_choose_best_card
        [⟨some Color.Red, Value.num 4⟩, ⟨some Color.Green, Value.num 4⟩,
          ⟨some Color.Blue, Value.skip⟩]
        [⟨some Color.Red, Value.num 4⟩, ⟨some Color.Green, Value.num 4⟩,
          ⟨some Color.Blue, Value.skip⟩]
        (some Color.Blue) (some (Value.num 4)) 3
      = some ⟨some Color.Red, Value.num 4⟩
    ∨ cpu_choose_best_card
        [⟨some Color.Red, Value.num 4⟩, ⟨some Color.Green, Value.num 4⟩,
          ⟨some Color.Blue, Value.skip⟩]
        [⟨some Color.Red, Value.num 4⟩, ⟨some Color.Green, Value.num 4⟩,
          ⟨some Color.Blue, Value.skip⟩]
        (some Color.Blue) (some (Value.num 4)) 3
      = some ⟨some Color.Green, Value.num 4⟩ :=
  claim_C9_amended_prefers_four
    [⟨some Color.Red, Value.num 4⟩, ⟨some Color.Green, Value.num 4⟩,
      ⟨some Color.Blue, Value.skip⟩]
    Color.Red Color.Green Color.Blue (some Color.Blue) (some (Value.num 4)) 3
    (by decide) (by decide) (by decide) (by decide) (by decide)

end Uno
